import Mathlib

/-!
Shallow embedding of the Fake-news-Detection app (src/main.py) and proofs
about its decision logic: the majority-vote aggregator, the prediction
adapter, and the detect-button input guard.
-/

set_option maxHeartbeats 1000000

namespace FakeNews

/-- Values of a Python dict, modelled as an association list in insertion
order; `list(pred_dict.values())` in the source. -/
def dictValues {α β : Type} (d : List (α × β)) : List β := d.map Prod.snd

/-- Embedding of `majority_vote` (src/main.py lines 80-86):
`preds = list(pred_dict.values()); ones = preds.count(1);
zeros = preds.count(0); final = 1 if ones > zeros else 0`. -/
def majority_vote (pred_dict : List (String × Int)) : Int × Nat × Nat :=
  let preds := dictValues pred_dict
  let ones := preds.count 1
  let zeros := preds.count 0
  let final : Int := if ones > zeros then 1 else 0
  (final, ones, zeros)

/-- A scikit-learn style classifier as used by `get_prediction`:
`predict` returns an array of labels (one per input row), and
`predict_proba` is optionally present (`hasattr(model, "predict_proba")`),
returning an array of per-row probability vectors. Probabilities are
modelled with exact rationals. -/
structure Classifier (X : Type) where
  predict : X → List Int
  predict_proba : Option (X → List (List ℚ))

/-- Embedding of `np.max` on a one-dimensional array: the maximum element,
undefined (an exception in numpy) on an empty array. -/
def npMax : List ℚ → Option ℚ
  | [] => none
  | x :: xs => some (xs.foldl max x)

/-- Embedding of `get_prediction` (src/main.py lines 68-77).
`pred = model.predict(X)[0]; conf = None; if hasattr(model,
"predict_proba"): conf = float(np.max(model.predict_proba(X)[0]));
return int(pred), conf`. Indexing an empty array or taking the max of an
empty vector raises in Python, modelled as `none`. -/
def get_prediction {X : Type} (model : Classifier X) (x : X) :
    Option (Int × Option ℚ) :=
  match (model.predict x).head? with
  | none => none
  | some pred =>
    match model.predict_proba with
    | none => some (pred, none)
    | some pp =>
      match (pp x).head? with
      | none => none
      | some proba =>
        match npMax proba with
        | none => none
        | some m => some (pred, some m)

/-- Whitespace characters stripped by Python `str.strip()`. -/
def pyIsSpace (c : Char) : Bool :=
  c == ' ' || c == '\t' || c == '\n' || c == '\x0d' || c == '\x0b' || c == '\x0c'

/-- Embedding of Python `str.strip()` on the character list of a string:
drop leading and trailing whitespace. -/
def pyStripList (cs : List Char) : List Char :=
  ((cs.dropWhile pyIsSpace).reverse.dropWhile pyIsSpace).reverse

/-- Embedding of Python `str.strip()`. -/
def pyStrip (s : String) : String := ⟨pyStripList s.data⟩

/-- Observable trace of one press of the Detect button: whether the
warning was shown, how many times `tfidf.transform` ran, how many
`model.predict` calls were made, and the aggregated result if inference
ran to completion. -/
structure DetectTrace where
  warned : Bool
  transformCalls : Nat
  predictCalls : Nat
  result : Option (Int × Nat × Nat)
  deriving Repr, DecidableEq

/-- Embedding of the detect-button handler (src/main.py lines 135-152):
`if not news_text.strip(): st.warning(...)` else transform the text once,
call `get_prediction` for every model, and aggregate with
`majority_vote`. A `none` result records a Python exception during
inference. -/
def detect_handler {X : Type} (tfidf : String → X)
    (models : List (String × Classifier X)) (news_text : String) :
    DetectTrace :=
  if pyStrip news_text = "" then
    { warned := true, transformCalls := 0, predictCalls := 0, result := none }
  else
    let x := tfidf news_text
    let raw := models.map (fun nm => (nm.1, get_prediction nm.2 x))
    let model_preds : Option (List (String × Int)) :=
      raw.foldr
        (fun p acc =>
          match p.2, acc with
          | some r, some l => some ((p.1, r.1) :: l)
          | _, _ => none)
        (some [])
    { warned := false
      transformCalls := 1
      predictCalls := models.length
      result := model_preds.map majority_vote }

/-- A fold of `max` over a list is at least its initial value. -/
lemma foldl_max_init_le (xs : List ℚ) (a : ℚ) : a ≤ xs.foldl max a := by
  induction xs generalizing a with
  | nil => exact le_refl a
  | cons y ys ih => exact le_trans (le_max_left a y) (ih (max a y))

/-- Every member of the list is at most the fold of `max` over it. -/
lemma le_foldl_max (xs : List ℚ) : ∀ a y : ℚ, y ∈ xs → y ≤ xs.foldl max a := by
  induction xs with
  | nil => intro a y hy; cases hy
  | cons z zs ih =>
    intro a y hy
    rw [List.foldl_cons]
    rcases List.mem_cons.mp hy with h | h
    · rw [h]
      exact le_trans (le_max_right a z) (foldl_max_init_le zs (max a z))
    · exact ih (max a z) y h

/-- The fold of `max` is either the initial value or a member of the list. -/
lemma foldl_max_mem (xs : List ℚ) :
    ∀ a : ℚ, xs.foldl max a = a ∨ xs.foldl max a ∈ xs := by
  induction xs with
  | nil => intro a; exact Or.inl rfl
  | cons y ys ih =>
    intro a
    rw [List.foldl_cons]
    rcases ih (max a y) with h | h
    · rcases max_cases a y with ⟨he, _⟩ | ⟨he, _⟩
      · exact Or.inl (by rw [h, he])
      · exact Or.inr (by rw [h, he]; exact List.mem_cons_self y ys)
    · exact Or.inr (List.mem_cons_of_mem y h)

/-- `npMax` returns a member of the list. -/
lemma npMax_mem {l : List ℚ} {m : ℚ} (h : npMax l = some m) : m ∈ l := by
  cases l with
  | nil => cases h
  | cons x xs =>
    have hm : xs.foldl max x = m := by
      simpa [npMax] using h
    rcases foldl_max_mem xs x with h2 | h2
    · rw [← hm, h2]; exact List.mem_cons_self x xs
    · rw [← hm]; exact List.mem_cons_of_mem x h2

/-- `npMax` returns an upper bound of the list. -/
lemma npMax_is_ub {l : List ℚ} {m : ℚ} (h : npMax l = some m) :
    ∀ y ∈ l, y ≤ m := by
  cases l with
  | nil => cases h
  | cons x xs =>
    have hm : xs.foldl max x = m := by
      simpa [npMax] using h
    intro y hy
    rw [← hm]
    rcases List.mem_cons.mp hy with h2 | h2
    · rw [h2]; exact foldl_max_init_le xs x
    · exact le_foldl_max xs x y h2

/-- Counting ones, zeros, and everything else partitions an integer list. -/
lemma count_partition (l : List Int) :
    l.count 1 + l.count 0 +
      (l.filter (fun v => decide (v ≠ 0 ∧ v ≠ 1))).length = l.length := by
  induction l with
  | nil => rfl
  | cons a t ih =>
    rcases eq_or_ne a 1 with h1 | h1
    · subst h1
      simp only [List.count_cons, List.filter_cons, List.length_cons, beq_iff_eq]
      rw [if_pos trivial, if_neg (by norm_num : ¬ ((1:Int) = 0)),
        if_neg (by decide : ¬ (decide ((1:Int) ≠ 0 ∧ (1:Int) ≠ 1) = true))]
      omega
    · rcases eq_or_ne a 0 with h0 | h0
      · subst h0
        simp only [List.count_cons, List.filter_cons, List.length_cons, beq_iff_eq]
        rw [if_neg (by norm_num : ¬ ((0:Int) = 1)), if_pos trivial,
          if_neg (by decide : ¬ (decide ((0:Int) ≠ 0 ∧ (0:Int) ≠ 1) = true))]
        omega
      · simp only [List.count_cons, List.filter_cons, List.length_cons, beq_iff_eq]
        rw [if_neg h1, if_neg h0,
          if_pos (decide_eq_true (⟨h0, h1⟩ : a ≠ 0 ∧ a ≠ 1)), List.length_cons]
        omega

/-- When every label is 0 or 1, ones plus zeros is the list length. -/
lemma count_binary (l : List Int) (hbin : ∀ v ∈ l, v = 0 ∨ v = 1) :
    l.count 1 + l.count 0 = l.length := by
  have h := count_partition l
  have hz : (l.filter (fun v => decide (v ≠ 0 ∧ v ≠ 1))).length = 0 := by
    rw [List.length_eq_zero]
    rw [List.filter_eq_nil_iff]
    intro v hv
    rcases hbin v hv with h0 | h1
    · simp [h0]
    · simp [h1]
  omega

/-- If every character of a string is whitespace, stripping it gives the
empty string. -/
lemma pyStrip_all_space (s : String) (hws : ∀ c ∈ s.data, pyIsSpace c = true) :
    pyStrip s = "" := by
  have h1 : s.data.dropWhile pyIsSpace = [] := by
    rw [List.dropWhile_eq_nil_iff]
    exact fun c hc => hws c hc
  show String.mk (pyStripList s.data) = String.mk []
  rw [pyStripList, h1]
  rfl

/-- Restating the tally as a standalone function of the two counts; used to
express that `majority_vote` has no hidden state beyond its input. -/
def voteFromCounts (ones zeros : Nat) : Int × Nat × Nat :=
  (if ones > zeros then 1 else 0, ones, zeros)

/-- C1: for every non-empty mapping with labels in \x7b0,1\x7d, the final
label is 1 exactly when strictly more entries carry label 1 than label 0,
otherwise 0 (ties give 0), and the result is independent of entry order. -/
theorem C1_majority_rule (l : List (String × Int)) (hne : l ≠ [])
    (hbin : ∀ p ∈ l, p.2 = 0 ∨ p.2 = 1) :
    (majority_vote l).1 =
      (if (dictValues l).count 1 > (dictValues l).count 0 then (1 : Int) else 0) ∧
    ((dictValues l).count 1 = (dictValues l).count 0 → (majority_vote l).1 = 0) ∧
    (∀ l2 : List (String × Int), l.Perm l2 → majority_vote l = majority_vote l2) := by
  refine ⟨rfl, ?_, ?_⟩
  · intro htie
    simp only [majority_vote, dictValues] at htie ⊢
    rw [if_neg (by omega)]
  · intro l2 hperm
    have hv : (dictValues l).Perm (dictValues l2) := hperm.map Prod.snd
    simp only [majority_vote, dictValues] at hv ⊢
    simp only [hv.count_eq]

/-- Witness for C1: the spec's tie vector `\x7bA:1,B:1,C:0,D:0\x7d` is
non-empty with binary labels, its counts tie, and the final label is 0. -/
theorem C1_witness :
    (majority_vote [("A", (1 : Int)), ("B", 1), ("C", 0), ("D", 0)]).1 = 0 :=
  (C1_majority_rule [("A", 1), ("B", 1), ("C", 0), ("D", 0)]
    (by decide) (by decide)).2.1 (by decide)

/-- C2: for every mapping whose labels all lie in \x7b0,1\x7d, the returned
counts satisfy ones + zeros = N, the number of entries. -/
theorem C2_tally_complete (l : List (String × Int))
    (hbin : ∀ p ∈ l, p.2 = 0 ∨ p.2 = 1) :
    (majority_vote l).2.1 + (majority_vote l).2.2 = l.length := by
  have hv : ∀ v ∈ dictValues l, v = 0 ∨ v = 1 := by
    intro v hvmem
    rcases List.mem_map.mp hvmem with ⟨p, hp, hpv⟩
    rcases hbin p hp with h | h
    · exact Or.inl (hpv ▸ h)
    · exact Or.inr (hpv ▸ h)
  have h := count_binary (dictValues l) hv
  simpa [majority_vote, dictValues] using h

/-- Witness for C2: on `\x7bA:1,B:1,C:1,D:0\x7d`, ones + zeros = 4. -/
theorem C2_witness :
    (majority_vote [("A", (1 : Int)), ("B", 1), ("C", 1), ("D", 0)]).2.1 +
      (majority_vote [("A", (1 : Int)), ("B", 1), ("C", 1), ("D", 0)]).2.2 =
      ([("A", (1 : Int)), ("B", 1), ("C", 1), ("D", 0)] : List (String × Int)).length :=
  C2_tally_complete [("A", 1), ("B", 1), ("C", 1), ("D", 0)] (by decide)

/-- C3: the spec's concrete test vectors: the 2-2 tie gives (0,2,2), the
3-1 split gives (1,3,1), and the single-entry mapping gives (1,1,0). -/
theorem C3_test_vectors :
    majority_vote [("A", 1), ("B", 1), ("C", 0), ("D", 0)] = (0, 2, 2) ∧
    majority_vote [("A", 1), ("B", 1), ("C", 1), ("D", 0)] = (1, 3, 1) ∧
    majority_vote [("A", 1)] = (1, 1, 0) := by
  refine ⟨?_, ?_, ?_⟩ <;> rfl

/-- C4: the empty mapping does not fail: it yields ones = 0, zeros = 0 and
final label 0 rather than raising any error. -/
theorem C4_empty_mapping : majority_vote [] = (0, 0, 0) := rfl

/-- C5: a classifier without a probability-estimation operation yields a
prediction whose confidence is explicitly absent (`none`), never 0 or any
other value. -/
theorem C5_confidence_absent {X : Type} (model : Classifier X) (x : X)
    (hno : model.predict_proba = none) (lbl : Int)
    (hp : (model.predict x).head? = some lbl) :
    get_prediction model x = some (lbl, none) := by
  simp only [get_prediction, hp, hno]

/-- Witness for C5: a concrete probability-incapable classifier produces
label 1 with confidence absent. -/
theorem C5_witness :
    get_prediction (Classifier.mk (fun _ => [(1 : Int)]) none) () =
      some (1, none) :=
  C5_confidence_absent (Classifier.mk (fun _ => [(1 : Int)]) none) () rfl 1 rfl

/-- C6: a classifier with a probability-estimation operation yields a
present confidence equal to the maximum of the class probabilities it
reports for the given feature vector (a member of the reported vector that
bounds every entry). -/
theorem C6_confidence_is_max {X : Type} (model : Classifier X) (x : X)
    (pp : X → List (List ℚ)) (hpp : model.predict_proba = some pp)
    (lbl : Int) (hp : (model.predict x).head? = some lbl)
    (proba : List ℚ) (hrow : (pp x).head? = some proba) (hne : proba ≠ []) :
    ∃ c, get_prediction model x = some (lbl, some c) ∧
      c ∈ proba ∧ ∀ y ∈ proba, y ≤ c := by
  cases proba with
  | nil => exact absurd rfl hne
  | cons p ps =>
    refine ⟨ps.foldl max p, ?_, ?_, ?_⟩
    · simp only [get_prediction, hp, hpp, hrow, npMax]
    · exact npMax_mem (l := p :: ps) rfl
    · exact npMax_is_ub (l := p :: ps) rfl

/-- Witness for C6: a classifier reporting probabilities (1/4, 3/4) gets
confidence 3/4, the maximum class probability. -/
theorem C6_witness :
    ∃ c, get_prediction
        (Classifier.mk (fun _ => [(0 : Int)]) (some (fun _ => [[1/4, 3/4]])))
        () = some (0, some c) ∧
      c ∈ [(1/4 : ℚ), 3/4] ∧ ∀ y ∈ [(1/4 : ℚ), 3/4], y ≤ c :=
  C6_confidence_is_max
    (Classifier.mk (fun _ => [(0 : Int)]) (some (fun _ => [[1/4, 3/4]])))
    () (fun _ => [[1/4, 3/4]]) rfl 0 rfl [1/4, 3/4] rfl (by decide)

/-- C7: the aggregator is pure and deterministic: equal inputs give
identical outputs, and the output is a function of the tally of the input
values alone, with no hidden state. -/
theorem C7_pure_deterministic (l1 l2 : List (String × Int)) (h : l1 = l2) :
    majority_vote l1 = majority_vote l2 ∧
    majority_vote l1 =
      voteFromCounts ((dictValues l1).count 1) ((dictValues l1).count 0) :=
  ⟨congrArg majority_vote h, rfl⟩

/-- Witness for C7: two invocations on the same concrete mapping agree. -/
theorem C7_witness :
    majority_vote [("A", (1 : Int)), ("B", 0)] =
      majority_vote [("A", (1 : Int)), ("B", 0)] :=
  (C7_pure_deterministic [("A", 1), ("B", 0)] [("A", 1), ("B", 0)] rfl).1

/-- C8: whitespace-only input is rejected with the warning and no
inference runs: the vectorizer transform and every classifier predict are
never invoked, and no result is produced. -/
theorem C8_reject_blank {X : Type} (tfidf : String → X)
    (models : List (String × Classifier X)) (news_text : String)
    (hws : ∀ c ∈ news_text.data, pyIsSpace c = true) :
    detect_handler tfidf models news_text =
      { warned := true, transformCalls := 0, predictCalls := 0,
        result := none } := by
  rw [detect_handler, if_pos (pyStrip_all_space news_text hws)]

/-- Witness for C8: the concrete input of two spaces and a newline, with
one dummy model, is rejected without any inference. -/
theorem C8_witness :
    detect_handler (fun _ => ())
      [("Logistic Regression", Classifier.mk (fun _ => [(1 : Int)]) none)]
      "  \n" =
      { warned := true, transformCalls := 0, predictCalls := 0,
        result := none } :=
  C8_reject_blank (fun _ => ())
    [("Logistic Regression", Classifier.mk (fun _ => [(1 : Int)]) none)]
    "  \n" (by decide)

/-- C9: on arbitrary finite mappings with arbitrary integer labels the
aggregator is total, its final label is always 0 or 1, and entries whose
label is neither 0 nor 1 are counted in neither ones nor zeros. -/
theorem C9_total_arbitrary (l : List (String × Int)) :
    ((majority_vote l).1 = 0 ∨ (majority_vote l).1 = 1) ∧
    (majority_vote l).2.1 + (majority_vote l).2.2 +
      ((dictValues l).filter (fun v => decide (v ≠ 0 ∧ v ≠ 1))).length =
      l.length := by
  constructor
  · simp only [majority_vote]
    rcases lt_or_ge ((dictValues l).count 0) ((dictValues l).count 1) with h | h
    · rw [if_pos h]; exact Or.inr rfl
    · rw [if_neg (by omega)]; exact Or.inl rfl
  · have h := count_partition (dictValues l)
    have hlen : (dictValues l).length = l.length := List.length_map l Prod.snd
    simp only [majority_vote]
    omega

/-- C10: a confidence-capable classifier whose reported row is a genuine
distribution over the two classes yields a present confidence in
[1/2, 1]. -/
theorem C10_confidence_bounds {X : Type} (model : Classifier X) (x : X)
    (pp : X → List (List ℚ)) (hpp : model.predict_proba = some pp)
    (lbl : Int) (hp : (model.predict x).head? = some lbl)
    (p q : ℚ) (hrow : (pp x).head? = some [p, q])
    (hp0 : 0 ≤ p) (hq0 : 0 ≤ q) (hsum : p + q = 1) :
    ∃ c, get_prediction model x = some (lbl, some c) ∧
      1/2 ≤ c ∧ c ≤ 1 := by
  rcases C6_confidence_is_max model x pp hpp lbl hp [p, q] hrow (by simp)
    with ⟨c, hc, hmem, hub⟩
  refine ⟨c, hc, ?_, ?_⟩
  · have hpc : p ≤ c := hub p (by simp)
    have hqc : q ≤ c := hub q (by simp [List.mem_cons])
    linarith
  · rcases List.mem_cons.mp hmem with h | h
    · subst h; linarith
    · rcases List.mem_cons.mp h with h2 | h2
      · subst h2; linarith
      · cases h2

/-- Witness for C10: the distribution (1/2, 1/2) is nonnegative and sums
to 1, and the resulting confidence lies in [1/2, 1]. -/
theorem C10_witness :
    ∃ c, get_prediction
        (Classifier.mk (fun _ => [(1 : Int)]) (some (fun _ => [[1/2, 1/2]])))
        () = some (1, some c) ∧
      1/2 ≤ c ∧ c ≤ 1 :=
  C10_confidence_bounds
    (Classifier.mk (fun _ => [(1 : Int)]) (some (fun _ => [[1/2, 1/2]])))
    () (fun _ => [[1/2, 1/2]]) rfl 1 rfl (1/2) (1/2)
    rfl (by norm_num) (by norm_num) (by norm_num)

end FakeNews
